import Mathlib

/-!
Verification of the resilient fetch-and-traverse engine of the vinskiy
forum crawler.  The Python sources (config.py, models.py, utils.py,
parsers.py, vinskiy_parser.py) are shallowly embedded below: pure
computations become Lean functions over `Nat`/`ℚ`, the impure parts
(network transport, random jitter, bs4 truthiness of a parsed page) are
supplied as oracle functions in a "world" record, and loops become
fuel-indexed recursions that also emit a trace of observable events.
-/

namespace Vinskiy

/-! Constants from `config.py` (class Config). -/

def MAX_PAGES : Nat := 50

def MAX_CONSECUTIVE_FAILURES : Nat := 5

def DELAY_BETWEEN_REQUESTS : ℚ := 1

def CACHE_TTL : ℚ := 300

def CACHE_MAX_SIZE : Nat := 1000

/-! `models.PerformanceMetrics`.  The Python dataclass mutates its fields
sequentially inside `add_request`; the record update below produces the
same final field values (times are exact rationals). -/

structure PerformanceMetrics where
  total_requests : Nat := 0
  successful_requests : Nat := 0
  failed_requests : Nat := 0
  cached_requests : Nat := 0
  total_processing_time : ℚ := 0
  average_request_time : ℚ := 0
  retry_attempts : Nat := 0
  deriving Repr, DecidableEq

def PerformanceMetrics.add_request (m : PerformanceMetrics) (success : Bool)
    (processing_time : ℚ) (from_cache : Bool) : PerformanceMetrics :=
  let total := m.total_requests + 1
  let tpt := m.total_processing_time + processing_time
  { m with
    total_requests := total
    total_processing_time := tpt
    successful_requests :=
      if success then m.successful_requests + 1 else m.successful_requests
    failed_requests :=
      if success then m.failed_requests else m.failed_requests + 1
    cached_requests :=
      if from_cache then m.cached_requests + 1 else m.cached_requests
    average_request_time := tpt / (total : ℚ) }

def PerformanceMetrics.add_retry (m : PerformanceMetrics) : PerformanceMetrics :=
  { m with retry_attempts := m.retry_attempts + 1 }

/-! Ordered-dictionary helpers.  Python's `dict`/`OrderedDict` keeps
insertion order; assigning to an existing key keeps its position and
replaces the value; deleting removes the key.  We model such a dictionary
as an association list whose head is the oldest (front of the order). -/

def dictGet (k : String) : List (String × α) → Option α
  | [] => none
  | p :: t => if p.1 = k then some p.2 else dictGet k t

def dictSet (k : String) (v : α) : List (String × α) → List (String × α)
  | [] => [(k, v)]
  | p :: t => if p.1 = k then (k, v) :: t else p :: dictSet k v t

def dictDel (k : String) : List (String × α) → List (String × α)
  | [] => []
  | p :: t => if p.1 = k then t else p :: dictDel k t

def dictKeys (d : List (String × α)) : List String := d.map Prod.fst

/-- `dict.update(new)` from `parse_forum`'s `all_topics.update(topics)`:
each pair of `new` is assigned in order into `d`. -/
def dictUpdate (d new : List (String × String)) : List (String × String) :=
  new.foldl (fun acc kv => dictSet kv.1 kv.2 acc) d

/-! `models.CacheEntry` and `utils.MemoryCache`.  `time.time()` is passed
in explicitly as `now : ℚ`. -/

structure CacheEntry (α : Type) where
  data : α
  timestamp : ℚ
  ttl : ℚ := 300
  deriving Repr, DecidableEq

/-- `CacheEntry.is_expired`: `time.time() - self.timestamp > self.ttl`. -/
def CacheEntry.is_expired (e : CacheEntry α) (now : ℚ) : Bool :=
  now - e.timestamp > e.ttl

abbrev CacheState (α : Type) : Type := List (String × CacheEntry α)

/-- `OrderedDict.move_to_end(key)` for a key known to be present. -/
def moveToEnd (k : String) (e : CacheEntry α) (s : CacheState α) : CacheState α :=
  dictDel k s ++ [(k, e)]

/-- `MemoryCache.get`: absent key gives `None`; an expired entry is deleted
and `None` is returned (lazy expiry); otherwise the key is moved to the end
of the order (most recently used) and its data is returned.  The second
component is the cache state after the call. -/
def MemoryCache.get (now : ℚ) (k : String) (s : CacheState α) :
    Option α × CacheState α :=
  match dictGet k s with
  | none => (none, s)
  | some e =>
    if e.is_expired now then (none, dictDel k s)
    else (some e.data, moveToEnd k e s)

/-- `MemoryCache._cleanup_expired`: delete every entry with
`current_time - entry.timestamp > entry.ttl`. -/
def cleanupExpired (now : ℚ) (s : CacheState α) : CacheState α :=
  s.filter (fun p => !(decide (now - p.2.timestamp > p.2.ttl)))

/-- `while len(self._data) >= self.max_size: self._data.popitem(last=False)`.
`popitem` on an empty dict raises `KeyError`, which we surface as `none`. -/
def evictWhileFull (maxSize : Nat) : CacheState α → Option (CacheState α)
  | [] => if 0 < maxSize then some [] else none
  | p :: t =>
    if (p :: t).length < maxSize then some (p :: t)
    else evictWhileFull maxSize t

/-- The TTL stored by `MemoryCache.put` is `ttl or self.default_ttl`: Python's
`or` falls back to the default not only for `None` but also for a falsy
`0.0` TTL. -/
def putTtl (ttlArg : Option ℚ) (defaultTtl : ℚ) : ℚ :=
  match ttlArg with
  | none => defaultTtl
  | some t => if t = 0 then defaultTtl else t

/-- `MemoryCache.put`: sweep expired entries, evict from the front while the
size is at least `max_size` (`none` models the `KeyError` crash when
`max_size = 0` drains the dict), then assign the new `CacheEntry` whose
timestamp is the present call's `time.time()`. -/
def MemoryCache.put (now : ℚ) (k : String) (v : α) (ttlArg : Option ℚ)
    (maxSize : Nat) (defaultTtl : ℚ) (s : CacheState α) :
    Option (CacheState α) :=
  match evictWhileFull maxSize (cleanupExpired now s) with
  | none => none
  | some s2 => some (dictSet k ⟨v, now, putTtl ttlArg defaultTtl⟩ s2)

/-! `models.RetryConfig` and `utils.RetryManager`.  The random jitter draw
`random.uniform(-0.1, 0.1)` is supplied as an oracle sample. -/

structure RetryConfig where
  max_attempts : Nat := 3
  strategy : String := "exponential_backoff"
  base_delay : ℚ := 1
  max_delay : ℚ := 60
  jitter : Bool := true
  backoff_factor : ℚ := 2
  deriving Repr, DecidableEq

/-- `RetryManager._calculate_delay`.  `jitterSample` stands for the
`random.uniform(-0.1, 0.1)` draw made when jitter is enabled. -/
def RetryManager.calculate_delay (cfg : RetryConfig) (attempt : Nat)
    (jitterSample : ℚ) : ℚ :=
  let delay :=
    if cfg.strategy = "exponential_backoff" then
      min (cfg.base_delay * cfg.backoff_factor ^ attempt) cfg.max_delay
    else if cfg.strategy = "linear_backoff" then
      min (cfg.base_delay * ((attempt : ℚ) + 1)) cfg.max_delay
    else
      cfg.base_delay
  if cfg.jitter then max 0 (delay + jitterSample * delay) else delay

/-- `Config.get_retry_config()` builds the client's `RetryConfig` with
`strategy=cls.RETRY_STRATEGY`, which is the `RetryStrategy.EXPONENTIAL_BACKOFF`
enum member, not its `.value` string.  `_calculate_delay` compares that
member against the strings "exponential_backoff" and "linear_backoff"; a
plain `Enum` member never equals a string, so both comparisons fail and the
fixed-delay branch runs.  We model the enum member as a string that is
unequal to both compared literals. -/
def clientRetryConfig : RetryConfig :=
  { max_attempts := 3
    strategy := "RetryStrategy.EXPONENTIAL_BACKOFF"
    base_delay := 1
    max_delay := 30
    jitter := true
    backoff_factor := 2 }

/-! `OptimizedHttpClient._make_request` and
`RetryManager.execute_with_retry`.  One network attempt's behaviour (what
`self.session.get` + `raise_for_status` + BeautifulSoup parsing does) is an
oracle `TransportOutcome`; `_make_request` classifies it into the two
exception kinds of `models.py`.  Parsed pages are abstract ids (`Nat`). -/

inductive TransportOutcome
  | ok (page : Nat)
  | timeout
  | connection_failed (msg : String)
  | http_status (code : Nat)
  | unexpected (msg : String)
  deriving Repr, DecidableEq

inductive PyError
  | retryable (msg : String)
  | non_retryable (msg : String)
  deriving Repr, DecidableEq

/-- `OptimizedHttpClient._make_request`: timeouts and connection errors
become `RetryableError`; HTTP 429/500/502/503/504 become `RetryableError`;
any other HTTP status becomes `NonRetryableError`; any other exception
becomes `NonRetryableError`. -/
def make_request (url : String) (outcome : TransportOutcome) :
    Except PyError Nat :=
  match outcome with
  | .ok page => .ok page
  | .timeout => .error (.retryable ("timeout: " ++ url))
  | .connection_failed m => .error (.retryable ("connection error: " ++ url ++ ": " ++ m))
  | .http_status code =>
    if code = 429 ∨ code = 500 ∨ code = 502 ∨ code = 503 ∨ code = 504 then
      .error (.retryable ("HTTP error " ++ toString code ++ ": " ++ url))
    else
      .error (.non_retryable ("HTTP error " ++ toString code ++ ": " ++ url))
  | .unexpected m => .error (.non_retryable ("unexpected error: " ++ url ++ ": " ++ m))

/-- Result of one `execute_with_retry` invocation: the value returned or the
exception propagated, together with the warning-level log records
`(attempt + 1, delay)` emitted before each retry sleep. -/
structure RetryRun where
  result : Except PyError Nat
  warnings : List (Nat × ℚ)
  deriving Repr

/-- The `for attempt in range(max_attempts)` loop of
`RetryManager.execute_with_retry`.  `remaining + attempt = max_attempts` at
every call.  A retryable exception on the last attempt breaks out and
re-raises it (`raise last_exception`); a retryable exception earlier logs a
warning `(attempt + 1, delay)`, sleeps, and retries; any other exception is
re-raised wrapped as `NonRetryableError`.  With `max_attempts = 0` the loop
body never runs and `raise last_exception` raises `None` (a `TypeError`). -/
def executeLoop (cfg : RetryConfig) (outcomes : Nat → TransportOutcome)
    (jitters : Nat → ℚ) (url : String) : Nat → Nat → RetryRun
  | 0, _ => { result := .error (.non_retryable "TypeError: exceptions must derive from BaseException"), warnings := [] }
  | remaining + 1, attempt =>
    match make_request url (outcomes attempt) with
    | .ok page => { result := .ok page, warnings := [] }
    | .error (.retryable m) =>
      if remaining = 0 then
        { result := .error (.retryable m), warnings := [] }
      else
        let d := RetryManager.calculate_delay cfg attempt (jitters attempt)
        let rest := executeLoop cfg outcomes jitters url remaining (attempt + 1)
        { result := rest.result, warnings := (attempt + 1, d) :: rest.warnings }
    | .error (.non_retryable m) =>
      { result := .error (.non_retryable ("non-retryable error: " ++ m)), warnings := [] }

def execute_with_retry (cfg : RetryConfig) (outcomes : Nat → TransportOutcome)
    (jitters : Nat → ℚ) (url : String) : RetryRun :=
  executeLoop cfg outcomes jitters url cfg.max_attempts 0

/-! `OptimizedHttpClient.get_page`.  The oracle world carries the per-attempt
transport outcomes, the jitter draws, the bs4 truthiness of each parsed page
(a BeautifulSoup document with no contents is falsy in Python), and the
elapsed wall time charged to the metrics. -/

structure FetchWorld where
  outcomes : Nat → TransportOutcome
  jitters : Nat → ℚ
  truthy : Nat → Bool
  elapsed : ℚ

structure GetPageResult where
  page : Option Nat
  cache : CacheState Nat
  metrics : PerformanceMetrics
  warnings : List (Nat × ℚ)

/-- The non-cached tail of `get_page`: run the request with retry; on
success store the (truthy) page in the cache and record a success metric;
on any exception record a failure metric and return `None`.  The impossible
`KeyError` from a crashed `cache.put` is likewise swallowed by
`except Exception` into the failure path. -/
def get_page_fetch (w : FetchWorld) (url : String) (use_cache : Bool)
    (cache1 : CacheState Nat) (m : PerformanceMetrics) (now : ℚ) :
    GetPageResult :=
  let r := execute_with_retry clientRetryConfig w.outcomes w.jitters url
  match r.result with
  | .ok soup =>
    if use_cache && w.truthy soup then
      match MemoryCache.put now url soup none CACHE_MAX_SIZE CACHE_TTL cache1 with
      | some c2 =>
        { page := some soup, cache := c2
          metrics := m.add_request true w.elapsed false, warnings := r.warnings }
      | none =>
        { page := none, cache := cache1
          metrics := m.add_request false w.elapsed false, warnings := r.warnings }
    else
      { page := some soup, cache := cache1
        metrics := m.add_request true w.elapsed false, warnings := r.warnings }
  | .error _ =>
    { page := none, cache := cache1
      metrics := m.add_request false w.elapsed false, warnings := r.warnings }

/-- `OptimizedHttpClient.get_page`.  `_get_cache_key` (the md5 hex digest of
the URL, a stable injective key) is modelled as the URL itself.  A cache hit
is only taken when the cached page is truthy (`if cached_result:`); the
cache lookup's own mutations (lazy expiry, most-recently-used move) are kept
either way. -/
def get_page (w : FetchWorld) (url : String) (use_cache : Bool)
    (cache : CacheState Nat) (m : PerformanceMetrics) (now : ℚ) :
    GetPageResult :=
  let hit := if use_cache then MemoryCache.get now url cache else (none, cache)
  match hit.1 with
  | some p =>
    if w.truthy p then
      { page := some p, cache := hit.2
        metrics := m.add_request true w.elapsed true, warnings := [] }
    else
      get_page_fetch w url use_cache hit.2 m now
  | none => get_page_fetch w url use_cache hit.2 m now

/-! The traversal loops of `vinskiy_parser.VinskiyForumParser`
(`parse_forum` and `parse_topic`).  Each loop iteration makes at most one
`get_page` call, at most one content extraction and at most one pagination
resolver call; their outcomes are oracles indexed by the page number of the
iteration.  The loops are embedded as fuel-indexed recursions that emit a
trace of observable events. -/

inductive Event
  | fetch (url : String)
  | pageFailed
  | pageOk (hasRecords : Bool)
  | sleep (delay : ℚ)
  | cycleDetected
  deriving Repr, DecidableEq

structure CrawlWorld where
  /-- `self.is_interrupted`; only an external interrupt handler ever sets
  it, so it is constant during one traversal. -/
  interrupted : Bool
  /-- Result of the `get_page` call of iteration `i` (pages are ids). -/
  fetch : Nat → Option Nat
  /-- bs4 truthiness of a parsed page (`if not soup:`). -/
  truthy : Nat → Bool
  /-- `extract_topic_links` at iteration `i`: the topics dict, or the
  `ContentExtractionError` it raises. -/
  extractTopics : Nat → Except String (List (String × String))
  /-- `extract_posts_from_page` + `_convert_posts_data_safe` at iteration
  `i`: one flag per extracted post, `true` when it converts to a `Post`
  (conversion failures are swallowed per post), or the raised error. -/
  extractPosts : Nat → Except String (List Bool)
  /-- `get_next_page_url` result at iteration `i` (`none` covers both "no
  next page" and the internally caught exceptions). -/
  nextUrl : Nat → Option String
  /-- `get_next_topic_page_url` result at iteration `i`. -/
  nextTopicUrl : Nat → Option String

/-- `if not soup:` on a `get_page` result: `None` and falsy pages both fail
the check. -/
def soupAbsent (w : CrawlWorld) : Option Nat → Bool
  | none => true
  | some p => ! w.truthy p

/-- `VinskiyForumParser._calculate_adaptive_delay`: scale the base delay up
by 50% per consecutive failure, scale it down by 20% when there are no
consecutive failures and more than 5 pages have been processed, floor at
0.5 seconds. -/
def calculate_adaptive_delay (page_num cf : Nat) : ℚ :=
  let base := DELAY_BETWEEN_REQUESTS
  let base := if 0 < cf then base * (1 + (cf : ℚ) * (1/2)) else base
  let base := if cf = 0 ∧ 5 < page_num then base * (8/10) else base
  max base (1/2)

structure ForumState where
  topics : List (String × String)
  failed_pages : List Nat
  page_count : Nat
  /-- `self.consecutive_failures` (instance state, may carry over). -/
  cf : Nat
  /-- `self.total_failures`. -/
  total_failures : Nat
  deriving Repr, DecidableEq

structure TopicState where
  /-- `len(all_posts)` accumulated so far. -/
  posts : Nat
  failed_pages : List Nat
  page_count : Nat
  cf : Nat
  total_failures : Nat
  deriving Repr, DecidableEq

/-- `VinskiyForumParser._handle_page_failure` on the forum cursor. -/
def failUpdateF (s : ForumState) : ForumState :=
  { s with cf := s.cf + 1, total_failures := s.total_failures + 1
           failed_pages := s.failed_pages ++ [s.page_count] }

/-- `VinskiyForumParser._handle_page_failure` on the topic cursor. -/
def failUpdateT (s : TopicState) : TopicState :=
  { s with cf := s.cf + 1, total_failures := s.total_failures + 1
           failed_pages := s.failed_pages ++ [s.page_count] }

def initForumState : ForumState :=
  { topics := [], failed_pages := [], page_count := 0, cf := 0, total_failures := 0 }

def initTopicState : TopicState :=
  { posts := 0, failed_pages := [], page_count := 0, cf := 0, total_failures := 0 }

/-- The `while` loop of `VinskiyForumParser.parse_forum`.  The loop guard is
`current_url and page_count < MAX_PAGES and not is_interrupted`; `fuel` only
bounds the recursion (one unit per iteration, `MAX_PAGES` at the top call
suffices).  In the absent-page branch `_handle_page_failure` runs and
`_try_next_page_url` is called with the falsy soup, so it returns `None`
and the loop guard fails at the `continue`: the iteration is final.  In the
exception branch (only `extract_topic_links` can raise here) the failure is
recorded, `_should_continue_after_error` decides between breaking and
continuing with the resolver's URL — without the cycle-equality check and
without the adaptive sleep. -/
def runForum (w : CrawlWorld) : Nat → Option String → ForumState →
    List Event × ForumState
  | 0, _, s => ([], s)
  | _ + 1, none, s => ([], s)
  | fuel + 1, some url, s =>
    if MAX_PAGES ≤ s.page_count ∨ w.interrupted then ([], s)
    else
      let pn := s.page_count + 1
      let s0 := { s with page_count := pn }
      if soupAbsent w (w.fetch pn) then
        ([.fetch url, .pageFailed], failUpdateF s0)
      else
        match w.extractTopics pn with
        | .error _ =>
          let s1 := failUpdateF s0
          if MAX_CONSECUTIVE_FAILURES ≤ s1.cf ∨ w.interrupted then
            ([.fetch url, .pageFailed], s1)
          else
            let r := runForum w fuel (w.nextUrl pn) s1
            (.fetch url :: .pageFailed :: r.1, r.2)
        | .ok topics =>
          let hasTopics := !topics.isEmpty
          let s1 :=
            if hasTopics then
              { s0 with topics := dictUpdate s0.topics topics, cf := 0 }
            else s0
          match w.nextUrl pn with
          | none => ([.fetch url, .pageOk hasTopics], s1)
          | some nu =>
            if nu = url then
              ([.fetch url, .pageOk hasTopics, .cycleDetected], s1)
            else
              let d := calculate_adaptive_delay pn s1.cf
              let r := runForum w fuel (some nu) s1
              (.fetch url :: .pageOk hasTopics :: .sleep d :: r.1, r.2)

/-- The `while` loop of `VinskiyForumParser.parse_topic`.  Same skeleton as
`parse_forum`; the per-page records are posts
(`consecutive_failures` resets only when at least one post converted), the
inter-request sleep uses the fixed `DELAY_BETWEEN_REQUESTS`, and the
resolver is `get_next_topic_page_url`. -/
def runTopic (w : CrawlWorld) : Nat → Option String → TopicState →
    List Event × TopicState
  | 0, _, s => ([], s)
  | _ + 1, none, s => ([], s)
  | fuel + 1, some url, s =>
    if MAX_PAGES ≤ s.page_count ∨ w.interrupted then ([], s)
    else
      let pn := s.page_count + 1
      let s0 := { s with page_count := pn }
      if soupAbsent w (w.fetch pn) then
        ([.fetch url, .pageFailed], failUpdateT s0)
      else
        match w.extractPosts pn with
        | .error _ =>
          let s1 := failUpdateT s0
          if MAX_CONSECUTIVE_FAILURES ≤ s1.cf ∨ w.interrupted then
            ([.fetch url, .pageFailed], s1)
          else
            let r := runTopic w fuel (w.nextTopicUrl pn) s1
            (.fetch url :: .pageFailed :: r.1, r.2)
        | .ok postFlags =>
          let converted := (postFlags.filter id).length
          let hasRecords := !(postFlags.filter id).isEmpty
          let s1 :=
            { s0 with posts := s0.posts + converted
                      cf := if hasRecords then 0 else s0.cf }
          match w.nextTopicUrl pn with
          | none => ([.fetch url, .pageOk hasRecords], s1)
          | some nu =>
            if nu = url then
              ([.fetch url, .pageOk hasRecords, .cycleDetected], s1)
            else
              let r := runTopic w fuel (some nu) s1
              (.fetch url :: .pageOk hasRecords :: .sleep DELAY_BETWEEN_REQUESTS :: r.1, r.2)

/-- One full `parse_forum` traversal from a fresh cursor. -/
def parse_forum_trace (w : CrawlWorld) (forum_url : String) :
    List Event × ForumState :=
  runForum w MAX_PAGES (some forum_url) initForumState

/-- One full `parse_topic` traversal from a fresh cursor. -/
def parse_topic_trace (w : CrawlWorld) (topic_url : String) :
    List Event × TopicState :=
  runTopic w MAX_PAGES (some topic_url) initTopicState

/-! Trace observables used to state the claims. -/

/-- The consecutive-failure streak accumulated within a traversal: a page
failure raises it, a page that yielded records resets it (mirroring the
updates of `self.consecutive_failures`, but counted from 0 at the start of
the traversal). -/
def streakStep (k : Nat) : Event → Nat
  | .pageFailed => k + 1
  | .pageOk true => 0
  | _ => k

def streakAfter (k : Nat) (es : List Event) : Nat := es.foldl streakStep k

/-- Every event of the trace happens while the in-traversal failure streak
is still below `MAX_CONSECUTIVE_FAILURES`: once the streak reaches the
threshold the trace has already ended. -/
def guardedFrom : Nat → List Event → Prop
  | _, [] => True
  | k, e :: es => k < MAX_CONSECUTIVE_FAILURES ∧ guardedFrom (streakStep k e) es

/-- A detected pagination cycle ends the traversal: whenever a
`cycleDetected` event occurs in the list, nothing follows it. -/
def cycFinal : List Event → Prop
  | [] => True
  | .cycleDetected :: es => es = []
  | _ :: es => cycFinal es

/-- Modelled from the spec: "5 consecutive clean pages" — the number of
pages processed without a failure since the last failed page, read off the
event trace (a successful page raises it whether or not it yielded records;
a failed page resets it). -/
def cleanStreakStep (k : Nat) : Event → Nat
  | .pageOk _ => k + 1
  | .pageFailed => 0
  | _ => k

def cleanStreakAfter (k : Nat) (es : List Event) : Nat :=
  es.foldl cleanStreakStep k

/-! Concrete worlds used to instantiate the theorems on explicit inputs. -/

/-- A run whose pages all fetch fine but whose extraction always raises,
while the resolver keeps answering with the page's own URL. -/
def allErrorWorld : CrawlWorld :=
  { interrupted := false
    fetch := fun _ => some 1
    truthy := fun _ => true
    extractTopics := fun _ => .error "extraction failed"
    extractPosts := fun _ => .error "extraction failed"
    nextUrl := fun _ => some "a"
    nextTopicUrl := fun _ => some "a" }

/-- A run whose very first fetch returns an absent result. -/
def absentWorld : CrawlWorld :=
  { interrupted := false
    fetch := fun _ => none
    truthy := fun _ => true
    extractTopics := fun _ => .ok []
    extractPosts := fun _ => .ok []
    nextUrl := fun _ => none
    nextTopicUrl := fun _ => none }

/-- A listing run whose page 2 fails at extraction, pages 1, 3, 4, 5, 6
succeed, and page 7's fetch is absent: the sleep after page 6 is the first
scaled-down delay although only 4 consecutive clean pages precede it. -/
def delayWorld : CrawlWorld :=
  { interrupted := false
    fetch := fun i => if i ≤ 6 then some 1 else none
    truthy := fun _ => true
    extractTopics := fun i => if i = 2 then .error "extraction failed" else .ok [("t", "u")]
    extractPosts := fun _ => .ok []
    nextUrl := fun i => some ("p" ++ toString (i + 1))
    nextTopicUrl := fun _ => none }

/-- A fetch whose first transport attempt times out and whose second
succeeds: exactly one retry happens. -/
def oneRetryWorld : FetchWorld :=
  { outcomes := fun i => if i = 0 then .timeout else .ok 1
    jitters := fun _ => 0
    truthy := fun _ => true
    elapsed := 0 }

/-- A `PerformanceMetrics` instance after a sequence of `add_request` calls
`(success, processing_time, from_cache)`, starting from the dataclass
defaults. -/
def metricsAfter (reqs : List (Bool × ℚ × Bool)) : PerformanceMetrics :=
  reqs.foldl (fun m r => m.add_request r.1 r.2.1 r.2.2) {}

/-- An exponential-backoff retry policy with jitter disabled and the
client's configured numbers (`RETRY_BASE_DELAY = 1.0`,
`RETRY_MAX_DELAY = 30.0`, `RETRY_BACKOFF_FACTOR = 2.0`). -/
def exponentialNoJitterConfig : RetryConfig :=
  { clientRetryConfig with strategy := "exponential_backoff", jitter := false }

/-- A fetch outcome degrades without raising: relative to the metrics `m`
seen on entry, the call either hands back a page together with a recorded
success, or hands back an absent result together with a recorded failure —
there is no third possibility (no escaping exception). -/
def settlesWithoutRaising (m : PerformanceMetrics) (r : GetPageResult) : Prop :=
  (∃ p, r.page = some p ∧
      r.metrics.failed_requests = m.failed_requests ∧
      r.metrics.successful_requests = m.successful_requests + 1 ∧
      r.metrics.total_requests = m.total_requests + 1) ∨
  (r.page = none ∧
    r.metrics.failed_requests = m.failed_requests + 1 ∧
    r.metrics.total_requests = m.total_requests + 1)

/-! Helper lemmas about the ordered-dictionary operations. -/

lemma dictGet_dictSet_self (k : String) (v : α) (d : List (String × α)) :
    dictGet k (dictSet k v d) = some v := by
  induction d with
  | nil => simp [dictGet, dictSet]
  | cons p t ih =>
    by_cases h : p.1 = k
    · simp [dictGet, dictSet, h]
    · simp [dictGet, dictSet, h, ih]

lemma mem_of_mem_dictSet {p : String × α} {k : String} {v : α}
    {d : List (String × α)} (hp : p ∈ dictSet k v d) (hk : p.1 ≠ k) : p ∈ d := by
  induction d with
  | nil => simp [dictSet] at hp; simp [hp] at hk
  | cons q t ih =>
    by_cases h : q.1 = k
    · simp only [dictSet, h, if_pos rfl] at hp
      rcases List.mem_cons.1 hp with h1 | h1
      · exact absurd (by simp [h1]) hk
      · exact List.mem_cons_of_mem _ h1
    · simp only [dictSet, if_neg h] at hp
      rcases List.mem_cons.1 hp with h1 | h1
      · exact h1 ▸ List.mem_cons_self _ _
      · exact List.mem_cons_of_mem _ (ih h1)

lemma dictSet_length_le (k : String) (v : α) (d : List (String × α)) :
    (dictSet k v d).length ≤ d.length + 1 := by
  induction d with
  | nil => simp [dictSet]
  | cons q t ih =>
    by_cases h : q.1 = k
    · simp [dictSet, h]
    · simpa [dictSet, h] using Nat.succ_le_succ ih

lemma dictSet_of_not_mem {k : String} {d : List (String × α)}
    (h : k ∉ dictKeys d) (v : α) : dictSet k v d = d ++ [(k, v)] := by
  induction d with
  | nil => simp [dictSet]
  | cons q t ih =>
    simp only [dictKeys, List.map_cons, List.mem_cons] at h
    push_neg at h
    simp only [dictSet, if_neg (Ne.symm h.1 : q.1 ≠ k)]
    rw [ih (by simpa [dictKeys] using h.2)]
    simp

lemma dictKeys_dictSet (k : String) (v : α) (d : List (String × α)) :
    dictKeys (dictSet k v d) =
      if k ∈ dictKeys d then dictKeys d else dictKeys d ++ [k] := by
  induction d with
  | nil => simp [dictSet, dictKeys]
  | cons q t ih =>
    by_cases h : q.1 = k
    · simp [dictSet, dictKeys, h]
    · simp only [dictSet, if_neg h, dictKeys, List.map_cons] at ih ⊢
      rw [ih]
      by_cases hk : k ∈ List.map Prod.fst t
      · simp [hk, Ne.symm h]
      · simp [hk, Ne.symm h]

lemma dictKeys_nodup_dictSet {d : List (String × α)}
    (h : (dictKeys d).Nodup) (k : String) (v : α) :
    (dictKeys (dictSet k v d)).Nodup := by
  rw [dictKeys_dictSet]
  by_cases hk : k ∈ dictKeys d
  · simpa [hk] using h
  · simp only [hk, if_false]
    simpa [List.nodup_append] using ⟨h, hk⟩

lemma dictGet_eq_none_of_not_mem {k : String} {d : List (String × α)}
    (h : k ∉ dictKeys d) : dictGet k d = none := by
  induction d with
  | nil => simp [dictGet]
  | cons q t ih =>
    simp only [dictKeys, List.map_cons, List.mem_cons] at h
    push_neg at h
    simp only [dictGet, if_neg (Ne.symm h.1 : q.1 ≠ k)]
    exact ih (by simpa [dictKeys] using h.2)

lemma dictGet_dictDel_self {d : List (String × α)}
    (h : (dictKeys d).Nodup) (k : String) :
    dictGet k (dictDel k d) = none := by
  induction d with
  | nil => simp [dictDel, dictGet]
  | cons q t ih =>
    simp only [dictKeys, List.map_cons, List.nodup_cons] at h
    by_cases hq : q.1 = k
    · simp only [dictDel, if_pos hq]
      exact dictGet_eq_none_of_not_mem (by simpa [dictKeys, hq] using h.1)
    · simp only [dictDel, if_neg hq, dictGet, if_neg hq]
      exact ih h.2

/-! Helper lemmas about the cache operations. -/

lemma evictWhileFull_length {maxSize : Nat} :
    ∀ {l l' : CacheState α}, evictWhileFull maxSize l = some l' →
      l'.length < maxSize := by
  intro l
  induction l with
  | nil =>
    intro l' h
    by_cases hm : 0 < maxSize
    · simp only [evictWhileFull, if_pos hm, Option.some.injEq] at h
      subst h
      simpa using hm
    · simp [evictWhileFull, hm] at h
  | cons p t ih =>
    intro l' h
    by_cases hl : (p :: t).length < maxSize
    · simp only [evictWhileFull, if_pos hl, Option.some.injEq] at h
      subst h
      exact hl
    · simp only [evictWhileFull, if_neg hl] at h
      exact ih h

lemma evictWhileFull_sublist {maxSize : Nat} :
    ∀ {l l' : CacheState α}, evictWhileFull maxSize l = some l' →
      l'.Sublist l := by
  intro l
  induction l with
  | nil =>
    intro l' h
    by_cases hm : 0 < maxSize
    · simp only [evictWhileFull, if_pos hm, Option.some.injEq] at h
      subst h
      exact List.Sublist.refl _
    · simp [evictWhileFull, hm] at h
  | cons p t ih =>
    intro l' h
    by_cases hl : (p :: t).length < maxSize
    · simp only [evictWhileFull, if_pos hl, Option.some.injEq] at h
      subst h
      exact List.Sublist.refl _
    · simp only [evictWhileFull, if_neg hl] at h
      exact (ih h).cons p

lemma evictWhileFull_of_length_eq {maxSize : Nat} {p : String × CacheEntry α}
    {t : CacheState α} (h : (p :: t).length = maxSize) :
    evictWhileFull maxSize (p :: t) = some t := by
  have h1 : ¬ (p :: t).length < maxSize := by omega
  have h2 : t.length < maxSize := by simp at h; omega
  simp only [evictWhileFull, if_neg h1]
  cases t with
  | nil => simp [evictWhileFull]; omega
  | cons q u =>
    simp only [evictWhileFull, if_pos h2]

lemma cleanupExpired_eq_self {now : ℚ} {s : CacheState α}
    (h : ∀ p ∈ s, p.2.is_expired now = false) : cleanupExpired now s = s := by
  rw [cleanupExpired, List.filter_eq_self]
  intro p hp
  have := h p hp
  simpa [CacheEntry.is_expired] using this

lemma mem_cleanupExpired {now : ℚ} {s : CacheState α} {p : String × CacheEntry α}
    (h : p ∈ cleanupExpired now s) :
    p ∈ s ∧ p.2.is_expired now = false := by
  rw [cleanupExpired] at h
  have := List.mem_filter.1 h
  refine ⟨this.1, ?_⟩
  simpa [CacheEntry.is_expired] using this.2

lemma put_eq_some {now : ℚ} {k : String} {v : α} {ttlArg : Option ℚ}
    {maxSize : Nat} {defaultTtl : ℚ} {s s1 : CacheState α}
    (h : MemoryCache.put now k v ttlArg maxSize defaultTtl s = some s1) :
    ∃ s2, evictWhileFull maxSize (cleanupExpired now s) = some s2 ∧
      s1 = dictSet k ⟨v, now, putTtl ttlArg defaultTtl⟩ s2 := by
  unfold MemoryCache.put at h
  rcases he : evictWhileFull maxSize (cleanupExpired now s) with _ | s2
  · rw [he] at h; simp at h
  · rw [he] at h
    simp only [Option.some.injEq] at h
    exact ⟨s2, rfl, h.symm⟩

/-! Helper lemmas about `PerformanceMetrics`. -/

lemma add_request_inv {m : PerformanceMetrics}
    (h1 : m.total_requests = m.successful_requests + m.failed_requests)
    (h2 : m.cached_requests ≤ m.total_requests)
    (s : Bool) (t : ℚ) (fc : Bool) :
    (m.add_request s t fc).total_requests =
        (m.add_request s t fc).successful_requests +
          (m.add_request s t fc).failed_requests ∧
      (m.add_request s t fc).cached_requests ≤ (m.add_request s t fc).total_requests ∧
      (m.add_request s t fc).average_request_time =
        (m.add_request s t fc).total_processing_time /
          ((m.add_request s t fc).total_requests : ℚ) := by
  unfold PerformanceMetrics.add_request
  refine ⟨?_, ?_, rfl⟩
  · cases s <;> simp [h1] <;> omega
  · cases fc <;> simp <;> omega

lemma metricsAfter_inv : ∀ (reqs : List (Bool × ℚ × Bool)) (m : PerformanceMetrics),
    m.total_requests = m.successful_requests + m.failed_requests →
    m.cached_requests ≤ m.total_requests →
    (0 < m.total_requests →
      m.average_request_time = m.total_processing_time / (m.total_requests : ℚ)) →
    (reqs.foldl (fun m r => m.add_request r.1 r.2.1 r.2.2) m).total_requests =
        (reqs.foldl (fun m r => m.add_request r.1 r.2.1 r.2.2) m).successful_requests +
          (reqs.foldl (fun m r => m.add_request r.1 r.2.1 r.2.2) m).failed_requests ∧
      (reqs.foldl (fun m r => m.add_request r.1 r.2.1 r.2.2) m).cached_requests ≤
        (reqs.foldl (fun m r => m.add_request r.1 r.2.1 r.2.2) m).total_requests ∧
      (0 < (reqs.foldl (fun m r => m.add_request r.1 r.2.1 r.2.2) m).total_requests →
        (reqs.foldl (fun m r => m.add_request r.1 r.2.1 r.2.2) m).average_request_time =
          (reqs.foldl (fun m r => m.add_request r.1 r.2.1 r.2.2) m).total_processing_time /
            ((reqs.foldl (fun m r => m.add_request r.1 r.2.1 r.2.2) m).total_requests : ℚ)) := by
  intro reqs
  induction reqs with
  | nil => intro m h1 h2 h3; exact ⟨h1, h2, h3⟩
  | cons r rest ih =>
    intro m h1 h2 h3
    simp only [List.foldl_cons]
    have hstep := add_request_inv h1 h2 r.1 r.2.1 r.2.2
    exact ih _ hstep.1 hstep.2.1 (fun _ => hstep.2.2)

/-- Claim C10: after every sequence of `add_request` calls, a
`PerformanceMetrics` instance satisfies `total_requests =
successful_requests + failed_requests`, `cached_requests ≤ total_requests`,
and, when `total_requests > 0`, `average_request_time =
total_processing_time / total_requests`. -/
theorem metrics_invariants (reqs : List (Bool × ℚ × Bool)) :
    (metricsAfter reqs).total_requests =
        (metricsAfter reqs).successful_requests + (metricsAfter reqs).failed_requests ∧
      (metricsAfter reqs).cached_requests ≤ (metricsAfter reqs).total_requests ∧
      (0 < (metricsAfter reqs).total_requests →
        (metricsAfter reqs).average_request_time =
          (metricsAfter reqs).total_processing_time /
            ((metricsAfter reqs).total_requests : ℚ)) :=
  metricsAfter_inv reqs {} rfl (Nat.le_refl 0) (fun h => absurd h (by simp))

/-- Witness for C10 at the concrete request sequence
`[(success, 2s, not cached), (failure, 4s, not cached)]`. -/
theorem metrics_invariants_witness :
    (metricsAfter [(true, 2, false), (false, 4, false)]).total_requests =
        (metricsAfter [(true, 2, false), (false, 4, false)]).successful_requests +
          (metricsAfter [(true, 2, false), (false, 4, false)]).failed_requests ∧
      0 < (metricsAfter [(true, 2, false), (false, 4, false)]).total_requests ∧
      (metricsAfter [(true, 2, false), (false, 4, false)]).average_request_time =
        (metricsAfter [(true, 2, false), (false, 4, false)]).total_processing_time /
          ((metricsAfter [(true, 2, false), (false, 4, false)]).total_requests : ℚ) :=
  ⟨(metrics_invariants [(true, 2, false), (false, 4, false)]).1, by decide,
    (metrics_invariants [(true, 2, false), (false, 4, false)]).2.2 (by decide)⟩

/-- Claim C7: for an exponential retry policy without jitter, the computed
delay never exceeds `max_delay` and is non-decreasing in the attempt
number (under the policy's standing assumptions `0 ≤ base_delay` and
`1 ≤ backoff_factor`, satisfied by the configured values). -/
theorem retry_delay_bounded_monotone (cfg : RetryConfig) (n : Nat) (j : ℚ)
    (hs : cfg.strategy = "exponential_backoff") (hj : cfg.jitter = false)
    (hb : 0 ≤ cfg.base_delay) (hf : 1 ≤ cfg.backoff_factor) :
    RetryManager.calculate_delay cfg n j ≤ cfg.max_delay ∧
    RetryManager.calculate_delay cfg n j ≤ RetryManager.calculate_delay cfg (n + 1) j := by
  unfold RetryManager.calculate_delay
  simp only [hs, hj, if_true, Bool.false_eq_true, if_false, if_pos rfl]
  constructor
  · exact min_le_right _ _
  · refine min_le_min ?_ le_rfl
    exact mul_le_mul_of_nonneg_left (pow_le_pow_right₀ hf (Nat.le_succ n)) hb

/-- Witness for C7 at the configured exponential policy with jitter off,
attempts 0 and 1. -/
theorem retry_delay_bounded_monotone_witness :
    RetryManager.calculate_delay exponentialNoJitterConfig 0 0 ≤
        exponentialNoJitterConfig.max_delay ∧
      RetryManager.calculate_delay exponentialNoJitterConfig 0 0 ≤
        RetryManager.calculate_delay exponentialNoJitterConfig 1 0 :=
  retry_delay_bounded_monotone exponentialNoJitterConfig 0 0 rfl rfl
    (by decide) (by decide)

/-- Claim C8 (the code contradicts it): on a fetch whose first transport
attempt times out and whose second succeeds, `execute_with_retry` performs
one retry and emits the warning `(attempt 1, delay 1.0)`, yet the shared
`PerformanceMetrics.retry_attempts` counter still reads 0 afterwards —
`add_retry` exists and the counter is printed in the final metrics, but no
code path ever calls it. -/
theorem retry_counter_never_incremented :
    (get_page oneRetryWorld "u" true [] {} 0).page = some 1 ∧
      (get_page oneRetryWorld "u" true [] {} 0).warnings = [(1, 1)] ∧
      (get_page oneRetryWorld "u" true [] {} 0).metrics.retry_attempts = 0 := by
  refine ⟨rfl, ?_, rfl⟩
  simp [get_page, get_page_fetch, execute_with_retry, executeLoop, make_request,
    oneRetryWorld, clientRetryConfig, RetryManager.calculate_delay, MemoryCache.get, dictGet,
    MemoryCache.put, evictWhileFull, cleanupExpired, CACHE_MAX_SIZE, CACHE_TTL, putTtl, dictSet]

lemma dictKeys_nodup_of_sublist {l l' : List (String × α)}
    (h : l'.Sublist l) (hn : (dictKeys l).Nodup) : (dictKeys l').Nodup :=
  hn.sublist (h.map Prod.fst)

lemma dictKeys_nodup_cleanupExpired {now : ℚ} {s : CacheState α}
    (hn : (dictKeys s).Nodup) : (dictKeys (cleanupExpired now s)).Nodup :=
  dictKeys_nodup_of_sublist (List.filter_sublist s) hn

/-- Claim C5 fails as stated at TTL `t = 0`: `put(k, 7, ttl=0)` stores the
cache-wide default TTL (300) because `0.0` is falsy in `ttl or
self.default_ttl`, so 10 time units after the put — strictly more than `t`
has elapsed — `get(k)` still returns the value instead of absent. -/
theorem cache_ttl_counterexample :
    MemoryCache.put (α := Nat) 0 "k" 7 (some 0) 10 300 [] =
        some [("k", ⟨7, 0, 300⟩)] ∧
      (MemoryCache.get (α := Nat) 10 "k" [("k", ⟨7, 0, 300⟩)]).1 = some 7 ∧
      (10 : ℚ) - 0 > 0 := by
  refine ⟨?_, ?_, by norm_num⟩
  · norm_num [MemoryCache.put, cleanupExpired, evictWhileFull, dictSet, putTtl]
  · norm_num [MemoryCache.get, dictGet, CacheEntry.is_expired]

/-- Claim C5 (amended): for every key `k`, value `v` and nonzero TTL `t`
(a zero TTL is falsy in Python and silently falls back to the cache-wide
default): after `put(k, v, ttl=t)` at time `t0` into a cache with distinct
keys, `get(k)` returns `v` and marks `k` most-recently-used whenever the
elapsed time is at most `t`, and strictly after `t` has elapsed it returns
absent and removes the expired entry at that access. -/
theorem cache_ttl_get {α : Type} (s : CacheState α) (maxSize : Nat)
    (defaultTtl t t0 now : ℚ) (k : String) (v : α) (s1 : CacheState α)
    (ht : t ≠ 0)
    (hput : MemoryCache.put t0 k v (some t) maxSize defaultTtl s = some s1)
    (hnd : (dictKeys s).Nodup) :
    (now - t0 ≤ t →
      (MemoryCache.get now k s1).1 = some v ∧
        (MemoryCache.get now k s1).2.getLast? = some (k, ⟨v, t0, t⟩)) ∧
    (t < now - t0 →
      (MemoryCache.get now k s1).1 = none ∧
        dictGet k (MemoryCache.get now k s1).2 = none) := by
  obtain ⟨s2, he, hs1⟩ := put_eq_some hput
  have httl : putTtl (some t) defaultTtl = t := by simp [putTtl, ht]
  rw [httl] at hs1
  have hget : dictGet k s1 = some ⟨v, t0, t⟩ := by
    rw [hs1]; exact dictGet_dictSet_self k _ s2
  have hnd1 : (dictKeys s1).Nodup := by
    rw [hs1]
    exact dictKeys_nodup_dictSet
      (dictKeys_nodup_of_sublist (evictWhileFull_sublist he)
        (dictKeys_nodup_cleanupExpired hnd)) k _
  constructor
  · intro hle
    have hexp : (CacheEntry.is_expired ⟨v, t0, t⟩ now : Bool) = false := by
      simp [CacheEntry.is_expired]
      linarith
    refine ⟨?_, ?_⟩
    · simp [MemoryCache.get, hget, hexp]
    · simp [MemoryCache.get, hget, hexp, moveToEnd, List.getLast?_concat]
  · intro hlt
    have hexp : (CacheEntry.is_expired ⟨v, t0, t⟩ now : Bool) = true := by
      simp [CacheEntry.is_expired]
      linarith
    refine ⟨?_, ?_⟩
    · simp [MemoryCache.get, hget, hexp]
    · simp only [MemoryCache.get, hget, hexp, if_true]
      exact dictGet_dictDel_self hnd1 k

/-- Witness for the amended C5: `put("k", 7, ttl=5)` at time 0 into an
empty cache of capacity 10; at time 3 the value is still served, at time 9
the entry has expired and the key reads absent. -/
theorem cache_ttl_get_witness :
    (MemoryCache.get (α := Nat) 3 "k" [("k", ⟨7, 0, 5⟩)]).1 = some 7 ∧
      (MemoryCache.get (α := Nat) 9 "k" [("k", ⟨7, 0, 5⟩)]).1 = none :=
  ⟨((cache_ttl_get [] 10 300 5 0 3 "k" 7 [("k", ⟨7, 0, 5⟩)]
      (by norm_num) rfl (by simp [dictKeys])).1 (by norm_num)).1,
    ((cache_ttl_get [] 10 300 5 0 9 "k" 7 [("k", ⟨7, 0, 5⟩)]
      (by norm_num) rfl (by simp [dictKeys])).2 (by norm_num)).1⟩

/-- Claim C6: a successful `put` first sweeps the expired entries, then
evicts in least-recently-used (front-of-order) fashion while at capacity,
then inserts: every surviving old entry is unexpired and comes from the old
state, the size after the put never exceeds `max_size`, and inserting a
fresh key into a full cache with no expired entries evicts exactly the
least-recently-used (front) entry. -/
theorem cache_put_lru_bound {α : Type} (now : ℚ) (k : String) (v : α)
    (ttlArg : Option ℚ) (maxSize : Nat) (defaultTtl : ℚ)
    (s s1 : CacheState α)
    (hput : MemoryCache.put now k v ttlArg maxSize defaultTtl s = some s1) :
    s1.length ≤ maxSize ∧
    (∀ p ∈ s1, p.1 ≠ k → p.2.is_expired now = false ∧ p ∈ s) ∧
    (k ∉ dictKeys s → (∀ p ∈ s, p.2.is_expired now = false) →
      s.length = maxSize →
      s1 = s.tail ++ [(k, ⟨v, now, putTtl ttlArg defaultTtl⟩)]) := by
  obtain ⟨s2, he, hs1⟩ := put_eq_some hput
  refine ⟨?_, ?_, ?_⟩
  · have h1 := evictWhileFull_length he
    have h2 := dictSet_length_le k (⟨v, now, putTtl ttlArg defaultTtl⟩ : CacheEntry α) s2
    rw [hs1]
    omega
  · intro p hp hk
    have hp2 : p ∈ s2 := mem_of_mem_dictSet (hs1 ▸ hp) hk
    have hp3 : p ∈ cleanupExpired now s := (evictWhileFull_sublist he).subset hp2
    have := mem_cleanupExpired hp3
    exact ⟨this.2, this.1⟩
  · intro hfresh hunexp hlen
    have hc : cleanupExpired now s = s := cleanupExpired_eq_self hunexp
    rw [hc] at he
    cases s with
    | nil =>
      have : maxSize = 0 := by simpa using hlen.symm
      rw [this] at he
      simp [evictWhileFull] at he
    | cons p t =>
      rw [evictWhileFull_of_length_eq hlen] at he
      have hs2 : s2 = t := by simpa using he.symm
      have hknot : k ∉ dictKeys t := by
        intro hmem
        apply hfresh
        simp only [dictKeys, List.map_cons, List.mem_cons]
        exact Or.inr hmem
      rw [hs1, hs2, dictSet_of_not_mem hknot ⟨v, now, putTtl ttlArg defaultTtl⟩]
      rfl

/-- Witness for C6: inserting key "c" into the full two-entry cache
`["a" (oldest), "b"]` with capacity 2 and no expired entries evicts "a"
and keeps the size at 2. -/
theorem cache_put_lru_bound_witness :
    [("b", (⟨2, 0, 300⟩ : CacheEntry Nat)), ("c", ⟨3, 10, 300⟩)] =
        [("a", (⟨1, 0, 300⟩ : CacheEntry Nat)), ("b", ⟨2, 0, 300⟩)].tail ++
          [("c", ⟨3, 10, 300⟩)] ∧
      ([("b", (⟨2, 0, 300⟩ : CacheEntry Nat)), ("c", ⟨3, 10, 300⟩)] :
          CacheState Nat).length ≤ 2 :=
  have h := cache_put_lru_bound (α := Nat) 10 "c" 3 none 2 300
    [("a", ⟨1, 0, 300⟩), ("b", ⟨2, 0, 300⟩)]
    [("b", ⟨2, 0, 300⟩), ("c", ⟨3, 10, 300⟩)]
    (by
      norm_num [MemoryCache.put, cleanupExpired, evictWhileFull, dictSet, putTtl,
        CacheEntry.is_expired]
      all_goals decide)
  ⟨h.2.2 (by decide) (by norm_num [CacheEntry.is_expired]) rfl, h.1⟩

/-! Claim C1: the Fetcher never raises past its own boundary. -/

lemma add_request_true_failed (m : PerformanceMetrics) (t : ℚ) (fc : Bool) :
    (m.add_request true t fc).failed_requests = m.failed_requests := rfl

lemma add_request_true_succ (m : PerformanceMetrics) (t : ℚ) (fc : Bool) :
    (m.add_request true t fc).successful_requests = m.successful_requests + 1 := rfl

lemma add_request_false_failed (m : PerformanceMetrics) (t : ℚ) (fc : Bool) :
    (m.add_request false t fc).failed_requests = m.failed_requests + 1 := rfl

lemma add_request_total (m : PerformanceMetrics) (s : Bool) (t : ℚ) (fc : Bool) :
    (m.add_request s t fc).total_requests = m.total_requests + 1 := rfl

lemma get_page_fetch_settles (w : FetchWorld) (url : String) (uc : Bool)
    (c1 : CacheState Nat) (m : PerformanceMetrics) (now : ℚ) :
    settlesWithoutRaising m (get_page_fetch w url uc c1 m now) := by
  simp only [get_page_fetch]
  split
  · split
    · split
      · unfold settlesWithoutRaising
        exact Or.inl ⟨_, rfl, add_request_true_failed m w.elapsed false,
          add_request_true_succ m w.elapsed false, add_request_total m true w.elapsed false⟩
      · unfold settlesWithoutRaising
        exact Or.inr ⟨rfl, add_request_false_failed m w.elapsed false,
          add_request_total m false w.elapsed false⟩
    · unfold settlesWithoutRaising
      exact Or.inl ⟨_, rfl, add_request_true_failed m w.elapsed false,
        add_request_true_succ m w.elapsed false, add_request_total m true w.elapsed false⟩
  · unfold settlesWithoutRaising
    exact Or.inr ⟨rfl, add_request_false_failed m w.elapsed false,
      add_request_total m false w.elapsed false⟩

/-- Claim C1: for every world, URL, cache state and metrics state, a
`get_page` call either returns a page and records exactly one successful
request, or returns an absent result and records exactly one failed
request — every failure (retries exhausted, fatal transport error,
unexpected exception, even a crashing cache insert) degrades to the absent
result; nothing escapes the call. -/
theorem get_page_never_raises (w : FetchWorld) (url : String)
    (use_cache : Bool) (cache : CacheState Nat) (m : PerformanceMetrics)
    (now : ℚ) :
    settlesWithoutRaising m (get_page w url use_cache cache m now) := by
  simp only [get_page]
  split
  · split
    · unfold settlesWithoutRaising
      exact Or.inl ⟨_, rfl, add_request_true_failed m w.elapsed true,
        add_request_true_succ m w.elapsed true, add_request_total m true w.elapsed true⟩
    · exact get_page_fetch_settles w url use_cache _ m now
  · exact get_page_fetch_settles w url use_cache _ m now

/-! Claim C2: the consecutive-failure circuit breaker. -/

lemma runForum_guarded (w : CrawlWorld) :
    ∀ (fuel : Nat) (url : Option String) (s : ForumState) (k : Nat),
      k ≤ s.cf → k < MAX_CONSECUTIVE_FAILURES →
      guardedFrom k (runForum w fuel url s).1 := by
  intro fuel
  induction fuel with
  | zero => intro url s k _ _; cases url <;> simp [runForum, guardedFrom]
  | succ fuel ih =>
    intro url s k hk hk5
    cases url with
    | none => simp [runForum, guardedFrom]
    | some u =>
      simp only [runForum]
      split
      · simp [guardedFrom]
      · split
        · simp [guardedFrom, streakStep, hk5]
        · split
          · next hguard _ =>
            split
            · simp [guardedFrom, streakStep, hk5]
            · next hcont =>
              have hcf : s.cf + 1 < MAX_CONSECUTIVE_FAILURES := by
                rcases not_or.1 hcont with ⟨h1, _⟩
                simpa [failUpdateF] using Nat.lt_of_not_le h1
              simp only [guardedFrom, streakStep]
              refine ⟨hk5, hk5, ?_⟩
              exact ih _ _ (k + 1)
                (by simpa [failUpdateF] using Nat.succ_le_succ hk)
                (Nat.lt_of_le_of_lt (Nat.succ_le_succ hk) hcf)
          · next topics _ =>
            split
            · simp [guardedFrom, streakStep, hk5]
            · split
              · rcases Bool.eq_false_or_eq_true topics.isEmpty with hb | hb
                · simp only [hb, Bool.not_true, if_neg (by simp : ¬ (false = true))]
                  simp only [guardedFrom, streakStep]
                  exact ⟨hk5, hk5, hk5, trivial⟩
                · simp only [hb, Bool.not_false, if_pos rfl]
                  simp only [guardedFrom, streakStep]
                  exact ⟨hk5, hk5, by decide, trivial⟩
              · rcases Bool.eq_false_or_eq_true topics.isEmpty with hb | hb
                · simp only [hb, Bool.not_true, if_neg (by simp : ¬ (false = true))]
                  simp only [guardedFrom, streakStep]
                  refine ⟨hk5, hk5, hk5, ?_⟩
                  exact ih _ _ k (by simpa using hk) hk5
                · simp only [hb, Bool.not_false, if_pos rfl]
                  simp only [guardedFrom, streakStep]
                  refine ⟨hk5, hk5, by decide, ?_⟩
                  exact ih _ _ 0 (by simp) (by decide)

lemma runTopic_guarded (w : CrawlWorld) :
    ∀ (fuel : Nat) (url : Option String) (s : TopicState) (k : Nat),
      k ≤ s.cf → k < MAX_CONSECUTIVE_FAILURES →
      guardedFrom k (runTopic w fuel url s).1 := by
  intro fuel
  induction fuel with
  | zero => intro url s k _ _; cases url <;> simp [runTopic, guardedFrom]
  | succ fuel ih =>
    intro url s k hk hk5
    cases url with
    | none => simp [runTopic, guardedFrom]
    | some u =>
      simp only [runTopic]
      split
      · simp [guardedFrom]
      · split
        · simp [guardedFrom, streakStep, hk5]
        · split
          · next hguard _ =>
            split
            · simp [guardedFrom, streakStep, hk5]
            · next hcont =>
              have hcf : s.cf + 1 < MAX_CONSECUTIVE_FAILURES := by
                rcases not_or.1 hcont with ⟨h1, _⟩
                simpa [failUpdateT] using Nat.lt_of_not_le h1
              simp only [guardedFrom, streakStep]
              refine ⟨hk5, hk5, ?_⟩
              exact ih _ _ (k + 1)
                (by simpa [failUpdateT] using Nat.succ_le_succ hk)
                (Nat.lt_of_le_of_lt (Nat.succ_le_succ hk) hcf)
          · next postFlags _ =>
            split
            · simp [guardedFrom, streakStep, hk5]
            · split
              · rcases Bool.eq_false_or_eq_true (postFlags.filter id).isEmpty with hb | hb
                · simp only [hb, Bool.not_true, if_neg (by simp : ¬ (false = true))]
                  simp only [guardedFrom, streakStep]
                  exact ⟨hk5, hk5, hk5, trivial⟩
                · simp only [hb, Bool.not_false, if_pos rfl]
                  simp only [guardedFrom, streakStep]
                  exact ⟨hk5, hk5, by decide, trivial⟩
              · rcases Bool.eq_false_or_eq_true (postFlags.filter id).isEmpty with hb | hb
                · simp only [hb, Bool.not_true, if_neg (by simp : ¬ (false = true))]
                  simp only [guardedFrom, streakStep]
                  refine ⟨hk5, hk5, hk5, ?_⟩
                  exact ih _ _ k (by simpa using hk) hk5
                · simp only [hb, Bool.not_false, if_pos rfl]
                  simp only [guardedFrom, streakStep]
                  refine ⟨hk5, hk5, by decide, ?_⟩
                  exact ih _ _ 0 (by simp) (by decide)

lemma guardedFrom_drop :
    ∀ (es : List Event) (k n : Nat), guardedFrom k es →
      MAX_CONSECUTIVE_FAILURES ≤ streakAfter k (es.take n) →
      es.drop n = [] := by
  intro es
  induction es with
  | nil => intro k n _ _; simp
  | cons e t ih =>
    intro k n hg hs
    simp only [guardedFrom] at hg
    cases n with
    | zero =>
      simp only [List.take_zero, streakAfter, List.foldl_nil] at hs
      exact absurd hs (not_le.mpr hg.1)
    | succ n =>
      simp only [List.take_succ_cons, streakAfter, List.foldl_cons] at hs
      simp only [List.drop_succ_cons]
      exact ih (streakStep k e) n hg.2 hs

/-- Claim C2: for both traversal kinds (forum listing and topic), once
`MAX_CONSECUTIVE_FAILURES` consecutive page failures have occurred within
the traversal (the in-traversal failure streak of the emitted trace reaches
the threshold on some prefix), the traversal is already Terminal: nothing —
in particular no further fetch attempt — follows that prefix, regardless of
how much page budget (`fuel`, bounded by `MAX_PAGES`) remains and of the
carried-over failure counter in the start state. -/
theorem circuit_breaker_halts (w : CrawlWorld) (fuel : Nat)
    (url : Option String) (sF : ForumState) (sT : TopicState) (n nt : Nat) :
    (MAX_CONSECUTIVE_FAILURES ≤ streakAfter 0 ((runForum w fuel url sF).1.take n) →
      (runForum w fuel url sF).1.drop n = []) ∧
    (MAX_CONSECUTIVE_FAILURES ≤ streakAfter 0 ((runTopic w fuel url sT).1.take nt) →
      (runTopic w fuel url sT).1.drop nt = []) :=
  ⟨fun h => guardedFrom_drop _ 0 n
      (runForum_guarded w fuel url sF 0 (Nat.zero_le _) (by decide)) h,
    fun h => guardedFrom_drop _ 0 nt
      (runTopic_guarded w fuel url sT 0 (Nat.zero_le _) (by decide)) h⟩

/-- Witness for C2: in the world whose extraction always raises, both
traversals accumulate 5 consecutive failures over the first 10 trace
events and nothing follows. -/
theorem circuit_breaker_halts_witness :
    MAX_CONSECUTIVE_FAILURES ≤
        streakAfter 0 ((runForum allErrorWorld MAX_PAGES (some "a") initForumState).1.take 10) ∧
      (runForum allErrorWorld MAX_PAGES (some "a") initForumState).1.drop 10 = [] ∧
      MAX_CONSECUTIVE_FAILURES ≤
        streakAfter 0 ((runTopic allErrorWorld MAX_PAGES (some "a") initTopicState).1.take 10) ∧
      (runTopic allErrorWorld MAX_PAGES (some "a") initTopicState).1.drop 10 = [] :=
  ⟨by decide,
    (circuit_breaker_halts allErrorWorld MAX_PAGES (some "a") initForumState
      initTopicState 10 10).1 (by decide),
    by decide,
    (circuit_breaker_halts allErrorWorld MAX_PAGES (some "a") initForumState
      initTopicState 10 10).2 (by decide)⟩

/-! Claim C3: the pagination cycle guard. -/

/-- Claim C3 fails as stated: in `allErrorWorld` the very first resolver
call returns the page's own URL "a" (a cycle), yet the listing traversal
does not stop within one more iteration and fetches "a" again — five
fetches of "a" in all — because the extraction-error recovery path
(`current_url = self._try_next_page_url(...)`) assigns the resolver's URL
without the equality check of the success path. -/
theorem cycle_guard_counterexample :
    allErrorWorld.nextUrl 1 = some "a" ∧
      (runForum allErrorWorld MAX_PAGES (some "a") initForumState).1.get? 0 =
        some (.fetch "a") ∧
      (runForum allErrorWorld MAX_PAGES (some "a") initForumState).1.count
        (.fetch "a") = 5 := by
  refine ⟨rfl, by decide, by decide⟩

lemma runForum_cycle_final (w : CrawlWorld) :
    ∀ (fuel : Nat) (url : Option String) (s : ForumState),
      cycFinal (runForum w fuel url s).1 := by
  intro fuel
  induction fuel with
  | zero => intro url s; cases url <;> simp [runForum, cycFinal]
  | succ fuel ih =>
    intro url s
    cases url with
    | none => simp [runForum, cycFinal]
    | some u =>
      simp only [runForum]
      split
      · simp [cycFinal]
      · split
        · simp [cycFinal]
        · split
          · split
            · simp [cycFinal]
            · simp only [cycFinal]
              exact ih _ _
          · split
            · simp [cycFinal]
            · split
              · simp [cycFinal]
              · simp only [cycFinal]
                exact ih _ _

lemma runTopic_cycle_final (w : CrawlWorld) :
    ∀ (fuel : Nat) (url : Option String) (s : TopicState),
      cycFinal (runTopic w fuel url s).1 := by
  intro fuel
  induction fuel with
  | zero => intro url s; cases url <;> simp [runTopic, cycFinal]
  | succ fuel ih =>
    intro url s
    cases url with
    | none => simp [runTopic, cycFinal]
    | some u =>
      simp only [runTopic]
      split
      · simp [cycFinal]
      · split
        · simp [cycFinal]
        · split
          · split
            · simp [cycFinal]
            · simp only [cycFinal]
              exact ih _ _
          · split
            · simp [cycFinal]
            · split
              · simp [cycFinal]
              · simp only [cycFinal]
                exact ih _ _

/-- Claim C3 (amended): the cycle guard holds on the success path — when a
page was fetched and extracted and the resolver then returns a URL equal to
the current one, the traversal stops at once (in every trace of either
traversal a `cycleDetected` event is the last event, so that URL is never
fetched again), and on the success path `current_url` only advances to a
differing URL; on the extraction-error recovery path, however, the
resolver's URL is taken without the equality check, so the same URL can be
fetched again (see the counterexample). -/
theorem cycle_event_terminal (w : CrawlWorld) (fuel : Nat)
    (url : Option String) (sF : ForumState) (sT : TopicState) :
    cycFinal (runForum w fuel url sF).1 ∧ cycFinal (runTopic w fuel url sT).1 :=
  ⟨runForum_cycle_final w fuel url sF, runTopic_cycle_final w fuel url sT⟩

/-! Claim C4: behaviour on an absent fetch result. -/

/-- Claim C4 fails as stated: with the very first fetch absent and the
failure counter at 0 — far below the threshold of 5 — the listing
traversal does not continue to a next iteration; it records the failure
and terminates immediately, because `_try_next_page_url` is handed the
falsy soup and returns `None`. -/
theorem absent_result_counterexample :
    (runForum absentWorld MAX_PAGES (some "a") initForumState).1 =
        [.fetch "a", .pageFailed] ∧
      (runForum absentWorld MAX_PAGES (some "a") initForumState).2.cf = 1 ∧
      1 < MAX_CONSECUTIVE_FAILURES := by
  refine ⟨by decide, by decide, by decide⟩

/-- Claim C4 (amended): when the Fetcher returns an absent result and no
stale page object is available (the soup in hand is the falsy one of this
iteration), the recovered next-page URL is absent, so the traversal — both
kinds — enters Terminal immediately at the next loop check, whatever the
value of the consecutive-failure counter; the threshold is consulted only
on the exception path. -/
theorem absent_result_terminates (w : CrawlWorld) (fuel : Nat) (url : String)
    (sF : ForumState) (sT : TopicState)
    (hpF : sF.page_count < MAX_PAGES) (hpT : sT.page_count < MAX_PAGES)
    (hi : w.interrupted = false)
    (haF : soupAbsent w (w.fetch (sF.page_count + 1)) = true)
    (haT : soupAbsent w (w.fetch (sT.page_count + 1)) = true) :
    runForum w (fuel + 1) (some url) sF =
        ([.fetch url, .pageFailed], failUpdateF { sF with page_count := sF.page_count + 1 }) ∧
      runTopic w (fuel + 1) (some url) sT =
        ([.fetch url, .pageFailed], failUpdateT { sT with page_count := sT.page_count + 1 }) := by
  constructor
  · simp [runForum, hi, haF, Nat.not_le.mpr hpF]
  · simp [runTopic, hi, haT, Nat.not_le.mpr hpT]

/-- Witness for the amended C4 in the world whose fetches are absent,
starting both traversals from fresh cursors. -/
theorem absent_result_terminates_witness :
    runForum absentWorld 50 (some "a") initForumState =
        ([.fetch "a", .pageFailed], failUpdateF { initForumState with page_count := 1 }) ∧
      runTopic absentWorld 50 (some "a") initTopicState =
        ([.fetch "a", .pageFailed], failUpdateT { initTopicState with page_count := 1 }) :=
  absent_result_terminates absentWorld 49 "a" initForumState initTopicState
    (by decide) (by decide) rfl (by decide) (by decide)

/-! Claim C9: the adaptive inter-request delay. -/

/-- Claim C9 fails as stated: in `delayWorld` (page 2 fails, pages 1 and
3–6 are clean) the sleep after page 6 — trace position 16 — is already the
scaled-down `0.8` delay although only 4 consecutive clean pages precede it:
the code's condition is `page_num > 5 and consecutive_failures == 0`, not
"after 5 consecutive clean pages", under which this delay would still be
the unscaled base of 1.0. -/
theorem adaptive_delay_counterexample :
    (runForum delayWorld MAX_PAGES (some "p1") initForumState).1.get? 16 =
        some (.sleep (4/5)) ∧
      cleanStreakAfter 0
        ((runForum delayWorld MAX_PAGES (some "p1") initForumState).1.take 16) = 4 ∧
      (4 : ℚ)/5 ≠ DELAY_BETWEEN_REQUESTS := by
  refine ⟨by with_unfolding_all rfl, by with_unfolding_all rfl, ?_⟩
  norm_num [DELAY_BETWEEN_REQUESTS]

/-- Claim C9 (amended): the adaptive delay equals the base delay scaled up
by 50% per consecutive failure when failures are present; it is scaled
down by 20% when there is no active failure streak
(`consecutive_failures == 0`) and more than 5 pages have been processed in
the traversal — regardless of how many of them were clean — and it is
always floored at 0.5 time units. -/
theorem adaptive_delay_formula (page_num cf : Nat) :
    (0 < cf → calculate_adaptive_delay page_num cf =
      max (DELAY_BETWEEN_REQUESTS * (1 + (cf : ℚ) * (1/2))) (1/2)) ∧
    (cf = 0 → 5 < page_num → calculate_adaptive_delay page_num cf =
      max (DELAY_BETWEEN_REQUESTS * (8/10)) (1/2)) ∧
    (cf = 0 → page_num ≤ 5 → calculate_adaptive_delay page_num cf =
      max DELAY_BETWEEN_REQUESTS (1/2)) ∧
    (1/2 : ℚ) ≤ calculate_adaptive_delay page_num cf := by
  simp only [calculate_adaptive_delay]
  refine ⟨?_, ?_, ?_, ?_⟩
  · intro h
    rw [if_pos h, if_neg (by omega : ¬ (cf = 0 ∧ 5 < page_num))]
  · intro h0 h5
    rw [if_neg (by omega : ¬ 0 < cf), if_pos ⟨h0, h5⟩]
  · intro h0 h5
    rw [if_neg (by omega : ¬ 0 < cf), if_neg (by omega : ¬ (cf = 0 ∧ 5 < page_num))]
  · split_ifs <;> exact le_max_right _ _

/-- Witness for the amended C9: at page 6 with no failures the delay is the
scaled-down `1.0 × 0.8` (floored at 0.5), and the floor holds e.g. at page
3 with one failure. -/
theorem adaptive_delay_formula_witness :
    calculate_adaptive_delay 6 0 = max (DELAY_BETWEEN_REQUESTS * (8/10)) (1/2) ∧
      (1/2 : ℚ) ≤ calculate_adaptive_delay 3 1 :=
  ⟨(adaptive_delay_formula 6 0).2.1 rfl (by norm_num),
    (adaptive_delay_formula 3 1).2.2.2⟩

end Vinskiy
